import Mathlib

/-!
Verification development for the GEEST2 plugin core (kartoza/GEEST2).

Shallow embedding of the orchestration code:
  - src/geest/core/json_tree_item.py            (JsonTreeItem.getStatus, getPaths)
  - src/geest/core/workflows/workflow_base.py   (WorkflowBase.execute, _mask_raster,
                                                 _create_workflow_directory)
  - src/geest/core/workflows/aggregation_workflow_base.py
                                                (get_raster_dict, aggregate)
  - src/geest/core/tasks/study_area.py          (grid_aligned_bbox)
  - src/geest/core/workflow_factory.py          (WorkflowFactory.create_workflow)
  - src/geest/core/workflow_job.py              (WorkflowJob.__init__ call binding)
  - src/geest/gui/views/treeview.py             (JsonTreeModel load / to_json)
  - src/geest/gui/panels/tree_panel.py          (phase-ordered workflow queueing)

Python dictionaries are modelled as association lists, file-system paths as
lists of path components, rasters as pixel functions into Option values
(none being the -9999 nodata sentinel), and floating point arithmetic is
idealized over the rationals.
-/

set_option maxHeartbeats 1000000

namespace Geest

/-- Whether the first character list is an initial segment of the second. -/
def startsWith : List Char → List Char → Bool
  | [], _ => true
  | _ :: _, [] => false
  | p :: ps, c :: cs => p == c && startsWith ps cs

/-- Whether the pattern occurs at some position of the character list. -/
def containsAt (pat : List Char) : List Char → Bool
  | [] => startsWith pat []
  | c :: cs => startsWith pat (c :: cs) || containsAt pat cs

/-- Substring containment, mirroring the Python expression pat in s. -/
def strContains (s pat : String) : Bool :=
  containsAt pat.data s.data

/-- Python str value or the string None, as produced by an f-string
interpolation of a value that may be None. -/
def pyStr (m : Option String) : String :=
  match m with
  | some v => v
  | none => "None"

/-- Python str.lower over ASCII, as used for the layer id. -/
def pyLower (s : String) : String := String.mk (s.data.map Char.toLower)

/-- os.path.dirname for a POSIX path string: everything before the final
separator (empty when the string has no separator). -/
def dirname (s : String) : String :=
  String.intercalate "/" ((s.splitOn "/").dropLast)

/-- os.path.join for two relative POSIX components: an empty component is
absorbed, otherwise the separator is inserted. -/
def pyJoin (a b : String) : String :=
  if a = "" then b else if b = "" then a else a ++ "/" ++ b

/-!
## JsonTreeItem (src/geest/core/json_tree_item.py)

The attributes dictionary self.itemData[3] is projected onto the fields the
embedded functions read.  The weight field models
item.attribute(self.weight_key) followed by the float() conversion of
get_raster_dict: none stands for a missing or unparseable weight (the code
then falls back to 1.0), some w for a parseable one.
-/

/-- The slice of a JsonTreeItem attributes dictionary read by getStatus and
get_raster_dict. -/
structure ItemAttrs where
  result : String
  analysis_mode : String
  indicator_required : Bool
  result_file : String
  id : String
  weight : Option ℚ
  deriving DecidableEq, Repr

/-- JsonTreeItem.getStatus (src/geest/core/json_tree_item.py lines 168-204):
returns a single-character status glyph from the item attributes, testing
substring containment exactly as the Python code does.  The analysis-mode
test uses the typographic apostrophe of the source string Don’t Use. -/
def getStatus (it : ItemAttrs) : String :=
  if strContains it.result "Error" then "x"
  else if strContains it.result "Failed" then "x"
  else if strContains it.analysis_mode "Don’t Use" && it.indicator_required then "-"
  else if strContains it.analysis_mode "Don’t Use" && !it.indicator_required then "!"
  else if !(strContains it.result "Workflow Completed") then "x"
  else "✔️"

/-!
## AggregationWorkflowBase.get_raster_dict
(src/geest/core/workflows/aggregation_workflow_base.py lines 315-386)

The guid list is modelled as the resolved list of child items; os.path.exists
is an oracle parameter.  The quoted fragments inside the first ValueError
message are kept without their ASCII quote characters.
-/

/-- One loop step list of get_raster_dict, embedded from the source: raises
(Except.error with the ValueError message) when a child is neither completed
successfully nor Do Not Use nor excluded, or when a surviving child has an
empty result file; children in mode Do Not Use or excluded are skipped;
otherwise the per-tile masked raster path is added with the child weight
(fallback 1.0) when the file exists. -/
def get_raster_dict (wd : String) (fileExists : String → Bool) (index : Nat) :
    List ItemAttrs → List (String × ℚ) → Except String (List (String × ℚ))
  | [], acc => Except.ok acc
  | it :: rest, acc =>
      let status := getStatus it == "Completed successfully"
      let mode := it.analysis_mode == "Do Not Use"
      let excluded := getStatus it == "Excluded from analysis"
      let idLower := pyLower it.id
      if !status && !mode && !excluded then
        Except.error (idLower ++
          " is not completed successfully and is not set to Do Not Use or Excluded from analysis")
      else if mode then
        get_raster_dict wd fileExists index rest acc
      else if excluded then
        get_raster_dict wd fileExists index rest acc
      else if it.result_file == "" then
        Except.error (idLower ++ " has no result file")
      else
        let layer_folder := dirname it.result_file
        let path := pyJoin (pyJoin wd layer_folder)
          (idLower ++ "_masked_" ++ toString index ++ ".tif")
        if fileExists path then
          get_raster_dict wd fileExists index rest (acc ++ [(path, it.weight.getD 1)])
        else
          get_raster_dict wd fileExists index rest acc

/-- A child item that completed successfully: the result text produced by
WorkflowBase.execute on success, an aggregation analysis mode, and a
populated result file. -/
def completedChild : ItemAttrs :=
  ⟨"Factor Aggregation Workflow Completed", "factor_aggregation", true,
   "out/res.tif", "Child1", some (1/2)⟩

/-- C2: getStatus only ever returns single-character glyphs, yet
get_raster_dict compares it to the tooltip sentences Completed successfully
and Excluded from analysis, so both comparisons are always false; a child
that completed successfully (and is not in mode Do Not Use) is therefore
rejected with a ValueError even though it has a usable result, where the
claim requires it to join the weighted input set without any error. -/
theorem get_raster_dict_rejects_completed_child :
    getStatus completedChild = "✔️" ∧
    get_raster_dict "wd" (fun _ => true) 0 [completedChild] [] =
      Except.error ("child1 is not completed successfully and is not set to Do Not Use or Excluded from analysis") := by
  constructor
  · rfl
  · rfl

/-!
## StudyAreaProcessingTask.grid_aligned_bbox
(src/geest/core/tasks/study_area.py lines 350-429)

Coordinates are idealized as rationals.  The embedding covers the case where
the input CRS equals the output CRS, so the coordinate transform at the top
of the method is the identity (the claim is about grid alignment, which is
CRS-independent).  Python int(a // c) on floats is the mathematical floor.
-/

/-- A bounding box, mirroring QgsRectangle (xMinimum, yMinimum, xMaximum,
yMaximum). -/
structure Rect where
  xMin : ℚ
  yMin : ℚ
  xMax : ℚ
  yMax : ℚ
  deriving DecidableEq, Repr

/-- Python int(a // c): floor division on floats followed by int() of an
integral float, which is the mathematical floor of a / c. -/
def pyFloorDiv (a c : ℚ) : ℤ := ⌊a / c⌋

/-- StudyAreaProcessingTask.grid_aligned_bbox, embedded from the source:
the study-area origin is the grid-snapped minimum corner of layer_bbox; the
aligned minimum edges floor the offset to the origin, the maximum edges use
floor plus one; finally one cell is subtracted from both minima and added to
both maxima. -/
def grid_aligned_bbox (layer_bbox : Rect) (cell : ℚ) (bbox : Rect) : Rect :=
  let ox : ℚ := (pyFloorDiv layer_bbox.xMin cell : ℤ) * cell
  let oy : ℚ := (pyFloorDiv layer_bbox.yMin cell : ℤ) * cell
  let x_min : ℚ := ox + (pyFloorDiv (bbox.xMin - ox) cell : ℤ) * cell
  let y_min : ℚ := oy + (pyFloorDiv (bbox.yMin - oy) cell : ℤ) * cell
  let x_max : ℚ := ox + ((pyFloorDiv (bbox.xMax - ox) cell : ℤ) + 1) * cell
  let y_max : ℚ := oy + ((pyFloorDiv (bbox.yMax - oy) cell : ℤ) + 1) * cell
  ⟨x_min - cell, y_min - cell, x_max + cell, y_max + cell⟩

/-- The alignment mechanism exactly as the claim words it, written from the
claim text for comparison with grid_aligned_bbox: floor and ceil of
(coord − origin) / cell_size give the covering cell indices, then exactly
one additional cell is added in all four directions. -/
def alignSpecClaim (layer_bbox : Rect) (cell : ℚ) (bbox : Rect) : Rect :=
  let ox : ℚ := (⌊layer_bbox.xMin / cell⌋ : ℤ) * cell
  let oy : ℚ := (⌊layer_bbox.yMin / cell⌋ : ℤ) * cell
  ⟨ox + ((⌊(bbox.xMin - ox) / cell⌋ : ℤ) - 1) * cell,
   oy + ((⌊(bbox.yMin - oy) / cell⌋ : ℤ) - 1) * cell,
   ox + ((⌈(bbox.xMax - ox) / cell⌉ : ℤ) + 1) * cell,
   oy + ((⌈(bbox.yMax - oy) / cell⌉ : ℤ) + 1) * cell⟩

/-- C3 counterexample: when the input maximum lies exactly on a grid line,
the code expands the maximum edge by floor-plus-one cells rather than the
ceil covering index, ending two cells past the input edge: for the study
area starting at the origin, cell size 100 and input box (0,0)-(100,100) the
code returns (-100,-100)-(300,300) while the mechanism stated by the claim
gives (-100,-100)-(200,200). -/
theorem grid_aligned_bbox_differs_from_claim_mechanism :
    grid_aligned_bbox ⟨0, 0, 1000, 1000⟩ 100 ⟨0, 0, 100, 100⟩ =
      ⟨-100, -100, 300, 300⟩ ∧
    alignSpecClaim ⟨0, 0, 1000, 1000⟩ 100 ⟨0, 0, 100, 100⟩ =
      ⟨-100, -100, 200, 200⟩ ∧
    grid_aligned_bbox ⟨0, 0, 1000, 1000⟩ 100 ⟨0, 0, 100, 100⟩ ≠
      alignSpecClaim ⟨0, 0, 1000, 1000⟩ 100 ⟨0, 0, 100, 100⟩ := by
  have h1 : grid_aligned_bbox ⟨0, 0, 1000, 1000⟩ 100 ⟨0, 0, 100, 100⟩ =
      ⟨-100, -100, 300, 300⟩ := by
    norm_num [grid_aligned_bbox, pyFloorDiv, Rect.mk.injEq]
  have h2 : alignSpecClaim ⟨0, 0, 1000, 1000⟩ 100 ⟨0, 0, 100, 100⟩ =
      ⟨-100, -100, 200, 200⟩ := by
    norm_num [alignSpecClaim, Rect.mk.injEq]
  refine ⟨h1, h2, ?_⟩
  rw [h1, h2]
  intro h
  have h3 := congrArg Rect.xMax h
  norm_num at h3

/-- The properties of the aligned box that hold of the source code: each
edge is an exact integer multiple of the cell size offset from the
study-area grid origin, the box contains the input expanded by at least one
cell on every side, and the construction is floor on the minimum edges and
floor-plus-one on the maximum edges followed by one extra cell in all four
directions. -/
def AlignedProps (lb : Rect) (cell : ℚ) (bb : Rect) : Prop :=
  let r := grid_aligned_bbox lb cell bb
  let ox : ℚ := (⌊lb.xMin / cell⌋ : ℤ) * cell
  let oy : ℚ := (⌊lb.yMin / cell⌋ : ℤ) * cell
  (∃ i : ℤ, r.xMin = ox + i * cell) ∧ (∃ i : ℤ, r.xMax = ox + i * cell) ∧
  (∃ i : ℤ, r.yMin = oy + i * cell) ∧ (∃ i : ℤ, r.yMax = oy + i * cell) ∧
  r.xMin ≤ bb.xMin - cell ∧ r.yMin ≤ bb.yMin - cell ∧
  bb.xMax + cell ≤ r.xMax ∧ bb.yMax + cell ≤ r.yMax ∧
  r.xMin = ox + ((⌊(bb.xMin - ox) / cell⌋ : ℤ) - 1) * cell ∧
  r.yMin = oy + ((⌊(bb.yMin - oy) / cell⌋ : ℤ) - 1) * cell ∧
  r.xMax = ox + ((⌊(bb.xMax - ox) / cell⌋ : ℤ) + 2) * cell ∧
  r.yMax = oy + ((⌊(bb.yMax - oy) / cell⌋ : ℤ) + 2) * cell

/-- Multiplying the floor of a / c by a positive c stays below a. -/
theorem floorDiv_mul_le (a c : ℚ) (hc : 0 < c) : (⌊a / c⌋ : ℚ) * c ≤ a := by
  have h1 : (⌊a / c⌋ : ℚ) ≤ a / c := Int.floor_le _
  have h2 : (⌊a / c⌋ : ℚ) * c ≤ (a / c) * c :=
    mul_le_mul_of_nonneg_right h1 (le_of_lt hc)
  calc (⌊a / c⌋ : ℚ) * c ≤ (a / c) * c := h2
    _ = a := div_mul_cancel₀ a (ne_of_gt hc)

/-- For positive c, a is at most floor (a / c) plus one, times c. -/
theorem le_floorDiv_add_one_mul (a c : ℚ) (hc : 0 < c) :
    a ≤ ((⌊a / c⌋ : ℚ) + 1) * c := by
  have h1 : a / c ≤ (⌊a / c⌋ : ℚ) + 1 := le_of_lt (Int.lt_floor_add_one _)
  have h2 : (a / c) * c ≤ ((⌊a / c⌋ : ℚ) + 1) * c :=
    mul_le_mul_of_nonneg_right h1 (le_of_lt hc)
  calc a = (a / c) * c := (div_mul_cancel₀ a (ne_of_gt hc)).symm
    _ ≤ ((⌊a / c⌋ : ℚ) + 1) * c := h2

/-- C3 amended: for every study-area box, positive cell size and input box,
the aligned box has edges at exact integer multiples of the cell size from
the grid origin and contains the input box expanded by at least one cell on
every side; the covering indices are computed with floor on the minimum
edges and floor-plus-one (not ceil) on the maximum edges, then one extra
cell is added in all four directions, so a maximum coordinate lying exactly
on a grid line ends two cells inside the aligned box. -/
theorem grid_aligned_bbox_aligned (lb : Rect) (cell : ℚ) (bb : Rect)
    (hc : 0 < cell) : AlignedProps lb cell bb := by
  have hmulx := floorDiv_mul_le (bb.xMin - (⌊lb.xMin / cell⌋ : ℚ) * cell) cell hc
  have hmuly := floorDiv_mul_le (bb.yMin - (⌊lb.yMin / cell⌋ : ℚ) * cell) cell hc
  have hmaxx := le_floorDiv_add_one_mul (bb.xMax - (⌊lb.xMin / cell⌋ : ℚ) * cell) cell hc
  have hmaxy := le_floorDiv_add_one_mul (bb.yMax - (⌊lb.yMin / cell⌋ : ℚ) * cell) cell hc
  refine ⟨⟨⌊(bb.xMin - (⌊lb.xMin / cell⌋ : ℚ) * cell) / cell⌋ - 1, ?_⟩,
          ⟨⌊(bb.xMax - (⌊lb.xMin / cell⌋ : ℚ) * cell) / cell⌋ + 2, ?_⟩,
          ⟨⌊(bb.yMin - (⌊lb.yMin / cell⌋ : ℚ) * cell) / cell⌋ - 1, ?_⟩,
          ⟨⌊(bb.yMax - (⌊lb.yMin / cell⌋ : ℚ) * cell) / cell⌋ + 2, ?_⟩,
          ?_, ?_, ?_, ?_, ?_, ?_, ?_, ?_⟩ <;>
    simp only [grid_aligned_bbox, pyFloorDiv] <;> push_cast <;> linarith

/-- C3 amended, witness: the aligned-box properties at the concrete study
area (0,0)-(1000,1000), cell size 100 and input box (3,7)-(205,311). -/
theorem grid_aligned_bbox_aligned_witness :
    (0 : ℚ) < 100 ∧ AlignedProps ⟨0, 0, 1000, 1000⟩ 100 ⟨3, 7, 205, 311⟩ :=
  ⟨by norm_num, grid_aligned_bbox_aligned ⟨0, 0, 1000, 1000⟩ 100 ⟨3, 7, 205, 311⟩ (by norm_num)⟩

/-!
## WorkflowBase.execute (src/geest/core/workflows/workflow_base.py lines 188-363)

File-system paths are modelled as lists of path components (os.path.join is
list append); the node attributes dictionary is a shadow list in which an
assignment prepends and lookup takes the first match, matching Python dict
assignment and lookup.  Attribute values are Option String because the code
stores None into error_file on success.  The backend work for one tile is
split into the production step (feature, raster or aggregate production,
lines 274-309) and the masking step (_mask_raster, line 312), each of which
either returns the produced raster path or raises; the mosaicking step
(_combine_rasters_to_vrt, line 320) likewise.  traceback.format_exc() is
runtime introspection and is modelled by the exception text itself.  The
features-layer reprojection guard of lines 221-255 is outside the tile loop
and is not part of the embedded run.
-/

/-- A Python-dict assignment on the attribute map: prepend the binding;
lookup takes the first match. -/
def setAttr (a : List (String × Option String)) (k : String) (v : Option String) :
    List (String × Option String) :=
  (k, v) :: a

/-- Python-dict lookup on the attribute map: the value at the first matching
binding. -/
def getAttr (a : List (String × Option String)) (k : String) : Option (Option String) :=
  (a.find? (fun p => p.1 == k)).map Prod.snd

/-- Render a component path the way os.path.join renders it. -/
def pathStr (p : List String) : String := String.intercalate "/" p

/-- Static configuration of one workflow run: the workflow name, the working
directory, the node path components returned by item.getPaths(). -/
structure WorkflowCfg where
  workflow_name : String
  working_directory : List String
  node_paths : List String
  deriving DecidableEq, Repr

/-- WorkflowBase._create_workflow_directory (lines 365-378): the private
per-node directory working_dir/dimension/factor/indicator obtained by
joining the working directory with item.getPaths(). -/
def _create_workflow_directory (cfg : WorkflowCfg) : List String :=
  cfg.working_directory ++ cfg.node_paths

/-- State threaded through the tile loop of execute: tiles whose iteration
was started, accumulated masked-raster paths, the log, and the pending
exception if one was raised. -/
structure LoopState where
  started : List Nat
  outputs : List String
  log : List String
  err : Option String
  deriving DecidableEq, Repr

/-- The log line of the cancellation poll (lines 266-271): the poll only
logs a warning and continues. -/
def cancelWarning : String := "Processing was canceled by the user."

/-- One iteration of the tile loop of execute (lines 260-318): when an
exception is already pending the loop has exited and the state is left
untouched; otherwise the cancellation poll logs (and nothing else), the
production step runs, then the masking step, and an exception from either
is recorded and ends the loop. -/
def tileStep (canceled : Nat → Bool) (produce : Nat → Except String String)
    (mask : Nat → String → Except String String) (st : LoopState) (i : Nat) :
    LoopState :=
  if st.err.isSome then st
  else
    let log1 := st.log ++ (if canceled i then [cancelWarning] else [])
    let started1 := st.started ++ [i]
    match produce i with
    | Except.error e => ⟨started1, st.outputs, log1, some e⟩
    | Except.ok r =>
        match mask i r with
        | Except.error e => ⟨started1, st.outputs, log1, some e⟩
        | Except.ok m => ⟨started1, st.outputs ++ [m], log1, none⟩

/-- The tile loop of execute over tile indices 0 to n-1 in area order. -/
def tileLoop (canceled : Nat → Bool) (produce : Nat → Except String String)
    (mask : Nat → String → Except String String) (n : Nat) : LoopState :=
  (List.range n).foldl (tileStep canceled produce mask) ⟨[], [], [], none⟩

/-- Outcome of execute: return value, final node attributes, tiles started,
log, and the files written by execute itself (the error artifact). -/
structure ExecOutcome where
  ret : Bool
  attrs : List (String × Option String)
  started : List Nat
  log : List String
  writes : List (List String × String)
  deriving Repr

/-- The except-branch of execute (lines 336-363): sets result to the
Workflow Error text, clears result_file, writes the traceback to error.txt
in the workflow directory, records that path in error_file, stores the
error text, and returns False. -/
def executeOnError (cfg : WorkflowCfg) (attrs : List (String × Option String))
    (st : LoopState) (e : String) : ExecOutcome :=
  let msg := "Failed to process " ++ cfg.workflow_name ++ ": " ++ e
  let errPath := _create_workflow_directory cfg ++ ["error.txt"]
  let a1 := setAttr attrs "result" (some (cfg.workflow_name ++ " Workflow Error"))
  let a2 := setAttr a1 "result_file" (some "")
  let a3 := setAttr a2 "error_file" (some (pathStr errPath))
  let a4 := setAttr a3 "error" (some msg)
  ⟨false, a4, st.started, st.log, [(errPath, msg)]⟩

/-- WorkflowBase.execute, embedded from the source: initializes result to
Not Run and the start timestamp, runs the tile loop, then either mosaics
the masked tile rasters into the VRT and records success, or lands in the
except branch. -/
def execute (cfg : WorkflowCfg) (canceled : Nat → Bool)
    (produce : Nat → Except String String)
    (mask : Nat → String → Except String String)
    (combineVrt : List String → Except String String)
    (startTime endTime : String) (n : Nat)
    (attrs0 : List (String × Option String)) : ExecOutcome :=
  let a1 := setAttr attrs0 "result" (some "Not Run")
  let a2 := setAttr a1 "execution_start_time" (some startTime)
  let st := tileLoop canceled produce mask n
  match st.err with
  | some e => executeOnError cfg a2 st e
  | none =>
      match combineVrt st.outputs with
      | Except.error e => executeOnError cfg a2 st e
      | Except.ok vrt =>
          let a3 := setAttr a2 "result_file" (some vrt)
          let a4 := setAttr a3 "result" (some (cfg.workflow_name ++ " Workflow Completed"))
          let a5 := setAttr a4 "execution_end_time" (some endTime)
          let a6 := setAttr a5 "error_file" none
          ⟨true, a6, st.started, st.log, []⟩

/-!
## Per-tile file locations (workflow_base.py)

The intermediate files one tile iteration writes, as built by the source:
the subset vector layer (utilities.subset_vector_layer line 78), the
clipped and reprojected raster (line 417), the rasterize output (line 500),
the masked raster (line 577), the error artifact (line 356) and the
combined VRT (line 657) all join onto self.workflow_directory; the cutline
mask layer of _mask_raster (lines 586-588) joins onto
tempfile.gettempdir() instead.
-/

/-- Whether path p lies under directory dir (dir is an initial segment of
the components of p). -/
def pathUnder (dir p : List String) : Prop := p.take dir.length = dir

instance (dir p : List String) : Decidable (pathUnder dir p) := by
  unfold pathUnder
  infer_instance

/-- The cutline mask shapefile path of _mask_raster (lines 586-588):
os.path.join(tempfile.gettempdir(), mask_layer_{index}.shp). -/
def mask_layer_path (tempDir : List String) (index : Nat) : List String :=
  tempDir ++ ["mask_layer_" ++ toString index ++ ".shp"]

/-- The per-tile and per-node files that workflow_base.py joins onto the
workflow directory: the subset features shapefile, the clipped and
reprojected raster, the rasterize output, the masked raster, the error
artifact and the combined VRT. -/
def workflow_directory_outputs (cfg : WorkflowCfg) (layer_id output_filename : String)
    (index : Nat) : List (List String) :=
  let dir := _create_workflow_directory cfg
  [dir ++ [layer_id ++ "_area_features_" ++ toString index ++ ".shp"],
   dir ++ [layer_id ++ "_clipped_and_reprojected_" ++ toString index ++ ".tif"],
   dir ++ [layer_id ++ "_" ++ toString index ++ ".tif"],
   dir ++ [layer_id ++ "_masked_" ++ toString index ++ ".tif"],
   dir ++ ["error.txt"],
   dir ++ [output_filename ++ "_combined.vrt"]]

/-!
## Theorems about the execute tile loop (claims C1, C6, C7)
-/

/-- A pending exception makes a loop iteration a no-op (the loop has exited). -/
theorem tileStep_absorb (canceled : Nat → Bool) (produce : Nat → Except String String)
    (mask : Nat → String → Except String String) (st : LoopState) (i : Nat)
    (h : st.err.isSome = true) : tileStep canceled produce mask st i = st := by
  simp [tileStep, h]

/-- A pending exception is preserved by the rest of the fold. -/
theorem foldl_tileStep_absorb (canceled : Nat → Bool) (produce : Nat → Except String String)
    (mask : Nat → String → Except String String) (l : List Nat) (st : LoopState)
    (h : st.err.isSome = true) : l.foldl (tileStep canceled produce mask) st = st := by
  induction l with
  | nil => rfl
  | cons a l ih => rw [List.foldl_cons, tileStep_absorb canceled produce mask st a h, ih]

/-- Both backend steps succeed on every tile before index k. -/
def okBefore (produce : Nat → Except String String)
    (mask : Nat → String → Except String String) (k : Nat) : Prop :=
  ∀ j, j < k → ∃ r m9, produce j = Except.ok r ∧ mask j r = Except.ok m9

/-- When every tile before k succeeds, the loop reaches tile k having
started exactly the tiles 0..k-1 with no pending exception. -/
theorem tileLoop_ok (canceled : Nat → Bool) (produce : Nat → Except String String)
    (mask : Nat → String → Except String String) (k : Nat)
    (h : okBefore produce mask k) :
    ∃ outs log, (List.range k).foldl (tileStep canceled produce mask) ⟨[], [], [], none⟩ =
      ⟨List.range k, outs, log, none⟩ := by
  induction k with
  | zero => exact ⟨[], [], rfl⟩
  | succ k ih =>
      obtain ⟨outs, log, hfold⟩ := ih (fun j hj => h j (Nat.lt_succ_of_lt hj))
      obtain ⟨r, m9, hr, hm⟩ := h k (Nat.lt_succ_self k)
      refine ⟨outs ++ [m9], log ++ (if canceled k then [cancelWarning] else []), ?_⟩
      rw [List.range_succ, List.foldl_append, hfold]
      simp [tileStep, hr, hm, List.range_succ]

/-- The tile where the first exception is raised: either the production step
or the masking step of tile k raises e. -/
def failsAt (produce : Nat → Except String String)
    (mask : Nat → String → Except String String) (k : Nat) (e : String) : Prop :=
  produce k = Except.error e ∨
    ∃ r, produce k = Except.ok r ∧ mask k r = Except.error e

/-- When the first exception occurs at tile k, the loop starts exactly the
tiles 0..k (no later tile is attempted) and ends with that exception
pending. -/
theorem tileLoop_first_failure (canceled : Nat → Bool)
    (produce : Nat → Except String String) (mask : Nat → String → Except String String)
    (n k : Nat) (e : String) (hk : k < n) (hok : okBefore produce mask k)
    (hfail : failsAt produce mask k e) :
    (tileLoop canceled produce mask n).started = List.range (k + 1) ∧
    (tileLoop canceled produce mask n).err = some e := by
  obtain ⟨outs, log, hfold⟩ := tileLoop_ok canceled produce mask k hok
  have hn : n = (k + 1) + (n - (k + 1)) := by omega
  unfold tileLoop
  rw [hn, List.range_add, List.foldl_append, List.range_succ, List.foldl_append, hfold]
  have hdone : ∀ st : LoopState, st.err = some e →
      ((List.range (n - (k + 1))).map (k + 1 + ·)).foldl
        (tileStep canceled produce mask) st = st := by
    intro st hst
    exact foldl_tileStep_absorb canceled produce mask _ st (by rw [hst]; rfl)
  rcases hfail with hf | ⟨r, hr, hm⟩
  · have hstep : List.foldl (tileStep canceled produce mask) ⟨List.range k, outs, log, none⟩ [k] =
        ⟨List.range k ++ [k], outs,
         log ++ (if canceled k then [cancelWarning] else []), some e⟩ := by
      simp [tileStep, hf]
    rw [hstep, hdone _ rfl]
    exact ⟨rfl, rfl⟩
  · have hstep : List.foldl (tileStep canceled produce mask) ⟨List.range k, outs, log, none⟩ [k] =
        ⟨List.range k ++ [k], outs,
         log ++ (if canceled k then [cancelWarning] else []), some e⟩ := by
      simp [tileStep, hr, hm]
    rw [hstep, hdone _ rfl]
    exact ⟨rfl, rfl⟩

/-- The outcome the except-branch of execute must deliver when the run dies
with exception e having started exactly the given tiles: execute returns
False, no further tile is attempted, result_file is cleared, the result and
error texts are set, the error artifact path is recorded on the node, and
the traceback artifact is written inside the node directory. -/
def AbortOutcome (cfg : WorkflowCfg) (canceled : Nat → Bool)
    (produce : Nat → Except String String) (mask : Nat → String → Except String String)
    (combineVrt : List String → Except String String) (t0 t1 : String)
    (n : Nat) (started : List Nat) (e : String)
    (attrs0 : List (String × Option String)) : Prop :=
  let out := execute cfg canceled produce mask combineVrt t0 t1 n attrs0
  out.ret = false ∧
  out.started = started ∧
  getAttr out.attrs "result_file" = some (some "") ∧
  getAttr out.attrs "result" = some (some (cfg.workflow_name ++ " Workflow Error")) ∧
  getAttr out.attrs "error" =
    some (some ("Failed to process " ++ cfg.workflow_name ++ ": " ++ e)) ∧
  getAttr out.attrs "error_file" =
    some (some (pathStr (_create_workflow_directory cfg ++ ["error.txt"]))) ∧
  out.writes = [(_create_workflow_directory cfg ++ ["error.txt"],
    "Failed to process " ++ cfg.workflow_name ++ ": " ++ e)]

/-- C6: any exception aborts the whole node through the except branch of
execute — first conjunct: the production or masking step of tile k raises
(tiles before it succeeding), so no tile after k is attempted; second
conjunct: every tile succeeds and the mosaicking step raises.  In both
cases the traceback is persisted to error.txt under the node directory and
that path recorded in error_file, result_file is set to empty, the result
is the Workflow Error text with the error message stored, and execute
returns False. -/
theorem execute_aborts_on_exception (cfg : WorkflowCfg) (canceled : Nat → Bool)
    (produce : Nat → Except String String) (mask : Nat → String → Except String String)
    (combineVrt : List String → Except String String) (t0 t1 : String)
    (n k : Nat) (e : String) (attrs0 : List (String × Option String)) :
    (k < n → okBefore produce mask k → failsAt produce mask k e →
      AbortOutcome cfg canceled produce mask combineVrt t0 t1 n
        (List.range (k + 1)) e attrs0) ∧
    (okBefore produce mask n →
      combineVrt (tileLoop canceled produce mask n).outputs = Except.error e →
      AbortOutcome cfg canceled produce mask combineVrt t0 t1 n
        (List.range n) e attrs0) := by
  constructor
  · intro hk hok hfail
    obtain ⟨hstarted, herr⟩ :=
      tileLoop_first_failure canceled produce mask n k e hk hok hfail
    unfold AbortOutcome
    simp only [execute, herr]
    unfold executeOnError
    refine ⟨rfl, hstarted, ?_, ?_, ?_, ?_, rfl⟩ <;>
      simp [getAttr, setAttr, List.find?]
  · intro hok hcomb
    obtain ⟨outs, log, hfold⟩ := tileLoop_ok canceled produce mask n hok
    have hloop : tileLoop canceled produce mask n =
        ⟨List.range n, outs, log, none⟩ := hfold
    rw [hloop] at hcomb
    have hcomb2 : combineVrt outs = Except.error e := by
      simpa using hcomb
    unfold AbortOutcome
    simp only [execute, hloop, hcomb2]
    unfold executeOnError
    refine ⟨rfl, rfl, ?_, ?_, ?_, ?_, rfl⟩ <;>
      simp [getAttr, setAttr, List.find?]

/-- Concrete workflow configuration used by the execute witnesses. -/
def cfgTest : WorkflowCfg := ⟨"Test", ["working"], ["contextual", "safety", "lights"]⟩

/-- A production step that raises on tile 1 and succeeds elsewhere. -/
def produceFailAt1 : Nat → Except String String :=
  fun i => if i = 1 then Except.error "boom" else Except.ok ("r" ++ toString i)

/-- A masking step that always succeeds. -/
def maskOk : Nat → String → Except String String :=
  fun _ r => Except.ok (r ++ "m")

/-- C6 witness: with three tiles and the production step of tile 1 raising,
execute aborts having started tiles 0 and 1 only; with one tile succeeding
and the mosaicking step raising, execute aborts after that tile with the
mosaic error recorded. -/
theorem execute_aborts_on_exception_witness :
    ((1 < 3 ∧ failsAt produceFailAt1 maskOk 1 "boom") ∧
      AbortOutcome cfgTest (fun _ => false) produceFailAt1 maskOk
        (fun _ => Except.ok "final.vrt") "t0" "t1" 3 (List.range 2) "boom" []) ∧
    AbortOutcome cfgTest (fun _ => false) produceFailAt1 maskOk
      (fun _ => Except.error "vrtboom") "t0" "t1" 1 (List.range 1) "vrtboom" [] := by
  have hok : okBefore produceFailAt1 maskOk 1 := by
    intro j hj
    have hj0 : j = 0 := by omega
    subst hj0
    exact ⟨"r0", "r0m", rfl, rfl⟩
  refine ⟨⟨⟨by omega, Or.inl rfl⟩, ?_⟩, ?_⟩
  · exact (execute_aborts_on_exception cfgTest (fun _ => false) produceFailAt1 maskOk
      (fun _ => Except.ok "final.vrt") "t0" "t1" 3 1 "boom" []).1
      (by omega) hok (Or.inl rfl)
  · exact (execute_aborts_on_exception cfgTest (fun _ => false) produceFailAt1 maskOk
      (fun _ => Except.error "vrtboom") "t0" "t1" 1 0 "vrtboom" []).2 hok rfl

/-- A production step that always succeeds. -/
def produceOk : Nat → Except String String :=
  fun i => Except.ok ("r" ++ toString i)

/-- C1: the cancellation poll of the tile loop only logs a warning; with the
cancellation handle set from the start and two tiles, execute still starts
both tiles, logs the cancellation warning twice, completes the mosaic, sets
the Workflow Completed result and returns True — it neither stops the loop,
nor returns False, nor records any Canceled status. -/
theorem execute_ignores_cancellation :
    (execute cfgTest (fun _ => true) produceOk maskOk
        (fun _ => Except.ok "final.vrt") "t0" "t1" 2 []).ret = true ∧
    (execute cfgTest (fun _ => true) produceOk maskOk
        (fun _ => Except.ok "final.vrt") "t0" "t1" 2 []).started = [0, 1] ∧
    getAttr (execute cfgTest (fun _ => true) produceOk maskOk
        (fun _ => Except.ok "final.vrt") "t0" "t1" 2 []).attrs "result" =
      some (some "Test Workflow Completed") ∧
    (execute cfgTest (fun _ => true) produceOk maskOk
        (fun _ => Except.ok "final.vrt") "t0" "t1" 2 []).log =
      [cancelWarning, cancelWarning] := by
  refine ⟨rfl, rfl, rfl, rfl⟩

/-- C7 counterexample: the cutline mask shapefile that _mask_raster writes
for tile 0 goes to the system temporary directory, not under the node
directory working/contextual/safety/lights, refuting the claim that no file
is ever written outside the node subdirectory. -/
theorem mask_layer_written_outside_node_directory :
    mask_layer_path ["tmp"] 0 = ["tmp", "mask_layer_0.shp"] ∧
    ¬ pathUnder (_create_workflow_directory cfgTest) (mask_layer_path ["tmp"] 0) := by
  exact ⟨rfl, by decide⟩

/-- C7 amended: every intermediate per-tile or per-node file that
workflow_base.py derives from self.workflow_directory — the subset features
layer, the clipped and reprojected raster, the rasterize output, the masked
raster, the error artifact and the combined VRT — lies under the node
directory derived from the hierarchical path, while the temporary cutline
mask shapefile of _mask_raster is written to the system temporary directory
instead. -/
theorem tile_outputs_under_node_directory (cfg : WorkflowCfg)
    (layer_id output_filename : String) (index : Nat) (tempDir : List String) :
    (∀ p ∈ workflow_directory_outputs cfg layer_id output_filename index,
        pathUnder (_create_workflow_directory cfg) p) ∧
    pathUnder tempDir (mask_layer_path tempDir index) := by
  constructor
  · intro p hp
    simp only [workflow_directory_outputs, List.mem_cons, List.not_mem_nil, or_false] at hp
    rcases hp with h | h | h | h | h | h <;> subst h <;>
      simp [pathUnder, List.take_left]
  · simp [pathUnder, mask_layer_path, List.take_left]

/-- C7 amended, witness: the masked raster of tile 0 lies under the node
directory and the cutline shapefile lies under the temp directory. -/
theorem tile_outputs_under_node_directory_witness :
    pathUnder (_create_workflow_directory cfgTest)
      (_create_workflow_directory cfgTest ++ ["lights_masked_0.tif"]) ∧
    pathUnder ["tmp"] (mask_layer_path ["tmp"] 0) := by
  have h := tile_outputs_under_node_directory cfgTest "lights" "out" 0 ["tmp"]
  refine ⟨h.1 _ ?_, h.2⟩
  decide

/-!
## AggregationWorkflowBase.aggregate
(src/geest/core/workflows/aggregation_workflow_base.py lines 47-313)

All per-tile rasters of one tile share the tile grid, so a raster is a
pixel function Nat → Option ℚ, none being the -9999 nodata sentinel of the
files.  The geoprocessing primitives the method drives are modelled
pixel-wise by their documented behavior:

  - merge_rasters (src/geest/core/algorithms/utilities.py lines 267-375,
    itself in src): output initialized to nodata, inputs copied in order,
    pixels where an input differs from its nodata overwriting — last write
    wins;
  - gdal:rastercalculator (gdal_calc): applies the formula where every
    input has data and writes the output nodata where an input is nodata;
  - gdal.Translate with noData set to -9999 and scaleParams 0,254,0,254
    (lines 170-179): pixel values are kept (the former byte nodata 255
    becomes an ordinary value because the declared nodata is now -9999);
  - gdal:merge of the zero mask and one child (lines 212-226, the mask
    first): child pixels that differ from the child nodata overwrite the
    mask, so the result is total.

Step 4 is run against the one-based byte mask (value 1 where the merged
raster has a value at least 0, nodata 255 elsewhere), with the formula
string mask times the weighted sum, exactly as the source builds it.
-/

/-- A per-tile raster on the shared tile grid; none is the nodata
sentinel. -/
def Raster : Type := Nat → Option ℚ

/-- One copy step of merge_rasters: input pixels with data overwrite the
accumulator. -/
def mergeStep (acc r : Raster) : Raster := fun p =>
  match r p with
  | some v => some v
  | none => acc p

/-- merge_rasters (src/geest/core/algorithms/utilities.py): output
initialized to nodata, inputs copied in order with later rasters
overwriting earlier ones where they have data. -/
def merge_rasters (inputs : List Raster) : Raster :=
  inputs.foldl mergeStep (fun _ => none)

/-- A single-input gdal:rastercalculator run: the formula is applied where
the input has data, nodata propagates. -/
def rasterCalc1 (f : ℚ → ℚ) (r : Raster) : Raster := fun p => (r p).map f

/-- gdal.Translate of the byte mask to Float32 with declared nodata -9999:
the byte nodata 255 becomes the ordinary value 255. -/
def translateMaskToFloat (r : Raster) : Nat → ℚ := fun p => (r p).getD 255

/-- gdal:merge of the zero mask and one child raster, the mask first: child
data pixels overwrite the mask. -/
def mergeOntoMask (m : Nat → ℚ) (child : Raster) : Nat → ℚ := fun p =>
  (child p).getD (m p)

/-- The weighted sum the step-4 formula string builds over the filled
layers. -/
def weightedSum (wfs : List (ℚ × (Nat → ℚ))) (p : Nat) : ℚ :=
  (wfs.map (fun wf => wf.1 * wf.2 p)).sum

/-- AggregationWorkflowBase.aggregate for one tile, embedded from the
source steps: merge the children (step 1), derive the zero- and one-based
masks from the merged raster (step 2), fill every child onto the zero mask
(step 3), then apply the one mask times the weighted sum of the filled
layers with output nodata -9999 (step 4). -/
def aggregate (children : List Raster) (ws : List ℚ) : Raster :=
  let merged := merge_rasters children
  let zeroMaskByte := rasterCalc1 (fun v => if v < 0 then 1 else 0) merged
  let oneMaskByte := rasterCalc1 (fun v => if 0 ≤ v then 1 else 0) merged
  let zeroMask := translateMaskToFloat zeroMaskByte
  let finals := children.map (mergeOntoMask zeroMask)
  fun p =>
    match oneMaskByte p with
    | none => none
    | some m => some (m * weightedSum (ws.zip finals) p)

/-- A merge-step pixel is nodata exactly when both the input and the
accumulator are. -/
theorem mergeStep_none (acc r : Raster) (p : Nat) :
    mergeStep acc r p = none ↔ r p = none ∧ acc p = none := by
  cases hr : r p <;> simp [mergeStep, hr]

/-- A folded merge pixel is nodata exactly when the accumulator and every
input are. -/
theorem foldl_merge_none (inputs : List Raster) :
    ∀ (acc : Raster) (p : Nat),
      (inputs.foldl mergeStep acc) p = none ↔
        acc p = none ∧ ∀ r ∈ inputs, r p = none := by
  induction inputs with
  | nil => simp
  | cons r rs ih =>
      intro acc p
      rw [List.foldl_cons, ih, mergeStep_none]
      simp only [List.forall_mem_cons]
      tauto

/-- Data values of a folded merge come from the accumulator or one of the
inputs, so nonnegativity is preserved. -/
theorem foldl_merge_nonneg (inputs : List Raster) :
    ∀ (acc : Raster), (∀ p v, acc p = some v → 0 ≤ v) →
      (∀ r ∈ inputs, ∀ p v, r p = some v → 0 ≤ v) →
      ∀ p v, (inputs.foldl mergeStep acc) p = some v → 0 ≤ v := by
  induction inputs with
  | nil => intro acc hacc _ p v h; exact hacc p v h
  | cons r rs ih =>
      intro acc hacc hall p v h
      refine ih (mergeStep acc r) ?_ (fun s hs => hall s (List.mem_cons_of_mem r hs)) p v h
      intro q w hq
      cases hr : r q with
      | some x =>
          have hxw : x = w := by simpa [mergeStep, hr] using hq
          exact hxw ▸ hall r (List.mem_cons_self r rs) q x hr
      | none =>
          exact hacc q w (by simpa [mergeStep, hr] using hq)

/-- The pixel-level value of aggregate: where some child has data the
output is the weighted sum of the children with missing children filled
with 0, elsewhere the output is nodata.  Needs the scores to be
nonnegative, as the 0-to-5 ordinal scale guarantees. -/
theorem aggregate_formula (children : List Raster) (ws : List ℚ)
    (hnn : ∀ r ∈ children, ∀ p v, r p = some v → 0 ≤ v) (p : Nat) :
    aggregate children ws p =
      if children.any (fun r => (r p).isSome) then
        some (((ws.zip children).map (fun wr => wr.1 * (wr.2 p).getD 0)).sum)
      else none := by
  cases hm : merge_rasters children p with
  | none =>
      have hall := (foldl_merge_none children (fun _ => none) p).mp hm
      have hany : children.any (fun r => (r p).isSome) = false := by
        simp only [List.any_eq_false]
        intro r hr
        simp [hall.2 r hr]
      have hnot : ¬ (children.any (fun r => (r p).isSome) = true) := by
        simp [hany]
      rw [if_neg hnot]
      simp only [merge_rasters] at hm
      simp [aggregate, rasterCalc1, merge_rasters, hm]
  | some v =>
      have hv : 0 ≤ v :=
        foldl_merge_nonneg children (fun _ => none) (by intro p v h; cases h) hnn p v hm
      have hany : children.any (fun r => (r p).isSome) = true := by
        by_contra hcontra
        have hfalse : children.any (fun r => (r p).isSome) = false := by
          revert hcontra
          cases children.any (fun r => (r p).isSome) <;> simp
        have hall : ∀ r ∈ children, r p = none := by
          intro r hr
          have := (List.any_eq_false.mp hfalse) r hr
          cases hrp : r p
          · rfl
          · simp [hrp] at this
        have : merge_rasters children p = none :=
          (foldl_merge_none children (fun _ => none) p).mpr ⟨rfl, hall⟩
        rw [this] at hm
        cases hm
      have hnotlt : ¬ v < 0 := not_lt.mpr hv
      have hfill : ∀ r : Raster,
          mergeOntoMask (translateMaskToFloat
            (rasterCalc1 (fun w => if w < 0 then 1 else 0) (merge_rasters children))) r p =
          (r p).getD 0 := by
        intro r
        simp [mergeOntoMask, translateMaskToFloat, rasterCalc1, hm, hnotlt]
      simp only [aggregate, rasterCalc1, hm, Option.map_some', if_pos hv, hany, if_true]
      congr 1
      rw [one_mul]
      unfold weightedSum
      rw [List.zip_map_right, List.map_map]
      congr 1
      apply List.map_congr_left
      intro wr hwr
      simp [Prod.map, hfill wr.2]

/-- The per-tile value contract of the aggregation: the general
presence-mask times weighted-sum identity (missing children filled with 0,
nodata — the -9999 sentinel on disk — exactly where no child has data),
the two-child overlap identity, and the single-child case in which the
output is neither nodata nor zero. -/
def WeightedCombinationProps (children : List Raster) (ws : List ℚ)
    (r1 r2 : Raster) (w1 w2 v1 v2 : ℚ) (p q1 q2 : Nat) : Prop :=
  (aggregate children ws p =
    if children.any (fun r => (r p).isSome) then
      some (((ws.zip children).map (fun wr => wr.1 * (wr.2 p).getD 0)).sum)
    else none) ∧
  (r1 q1 = some v1 → r2 q1 = some v2 →
    aggregate [r1, r2] [w1, w2] q1 = some (w1 * v1 + w2 * v2)) ∧
  (r1 q2 = some v1 → r2 q2 = none →
    aggregate [r1, r2] [w1, w2] q2 = some (w1 * v1) ∧
    aggregate [r1, r2] [w1, w2] q2 ≠ none ∧
    (w1 ≠ 0 → v1 ≠ 0 → aggregate [r1, r2] [w1, w2] q2 ≠ some 0))

/-- C4: for every tile, the aggregated pixel equals the presence mask times
the weighted sum of the children filled onto the presence footprint,
written with the -9999 nodata sentinel (none in the model); in particular
where two children with weights w1 + w2 = 1 both have data the output is
w1 * v1 + w2 * v2, and where only one child has data the output is its
weighted value — not nodata and, for a nonzero weighted score, not zero.
Scores are nonnegative per the 0-to-5 ordinal scale. -/
theorem aggregate_weighted_combination (children : List Raster) (ws : List ℚ)
    (r1 r2 : Raster) (w1 w2 v1 v2 : ℚ) (p q1 q2 : Nat)
    (hnn : ∀ r ∈ children, ∀ p v, r p = some v → 0 ≤ v)
    (h1 : ∀ p v, r1 p = some v → 0 ≤ v)
    (h2 : ∀ p v, r2 p = some v → 0 ≤ v)
    (_hw : w1 + w2 = 1) :
    WeightedCombinationProps children ws r1 r2 w1 w2 v1 v2 p q1 q2 := by
  have hnn2 : ∀ r ∈ [r1, r2], ∀ p v, r p = some v → 0 ≤ v := by
    intro r hr
    rcases List.mem_cons.mp hr with h | h
    · exact h ▸ h1
    · rcases List.mem_cons.mp h with h | h
      · exact h ▸ h2
      · cases h
  refine ⟨aggregate_formula children ws hnn p, ?_, ?_⟩
  · intro ha hb
    rw [aggregate_formula [r1, r2] [w1, w2] hnn2 q1]
    have hpos : ([r1, r2].any (fun r => (r q1).isSome)) = true := by
      simp [ha]
    rw [if_pos hpos]
    simp [List.zip, ha, hb]
  · intro ha hb
    have hval : aggregate [r1, r2] [w1, w2] q2 = some (w1 * v1) := by
      rw [aggregate_formula [r1, r2] [w1, w2] hnn2 q2]
      have hpos : ([r1, r2].any (fun r => (r q2).isSome)) = true := by
        simp [ha]
      rw [if_pos hpos]
      simp [List.zip, ha, hb]
    refine ⟨hval, by rw [hval]; exact Option.some_ne_none _, ?_⟩
    intro hw1 hv1 heq
    rw [hval] at heq
    have : w1 * v1 = 0 := Option.some.inj heq
    rcases mul_eq_zero.mp this with h | h
    · exact hw1 h
    · exact hv1 h

/-- Witness raster with the score 3 everywhere. -/
def wr1 : Raster := fun _ => some 3

/-- Witness raster with the score 5 at pixel 0 and nodata elsewhere. -/
def wr2 : Raster := fun p => if p = 0 then some 5 else none

/-- C4 witness: the per-tile contract at two concrete children with weights
one half each, an overlap pixel 0, a pixel 1 covered only by the first
child, and a general pixel 2. -/
theorem aggregate_weighted_combination_witness :
    ((1 : ℚ) / 2 + 1 / 2 = 1) ∧
    WeightedCombinationProps [wr1, wr2] [1 / 2, 1 / 2] wr1 wr2
      (1 / 2) (1 / 2) 3 5 2 0 1 := by
  have h1 : ∀ p v, wr1 p = some v → (0 : ℚ) ≤ v := by
    intro p v h
    have hv : (3 : ℚ) = v := Option.some.inj h
    rw [← hv]
    norm_num
  have h2 : ∀ p v, wr2 p = some v → (0 : ℚ) ≤ v := by
    intro p v h
    by_cases hp : p = 0
    · have hv : (5 : ℚ) = v := Option.some.inj (by simpa [wr2, hp] using h)
      rw [← hv]
      norm_num
    · simp [wr2, hp] at h
  have hnn : ∀ r ∈ [wr1, wr2], ∀ p v, r p = some v → (0 : ℚ) ≤ v := by
    intro r hr
    rcases List.mem_cons.mp hr with h | h
    · exact h ▸ h1
    · rcases List.mem_cons.mp h with h | h
      · exact h ▸ h2
      · cases h
  exact ⟨by norm_num,
    aggregate_weighted_combination [wr1, wr2] [1 / 2, 1 / 2] wr1 wr2
      (1 / 2) (1 / 2) 3 5 2 0 1 hnn h1 h2 (by norm_num)⟩

/-!
## JsonTreeModel load and serialization (src/geest/gui/views/treeview.py)

Node dictionaries are association lists of primitive values with unique
keys, as Python dicts are; the child arrays that live under the keys
dimensions, factors and layers in the real JSON are split into their own
fields, all remaining keys forming the attrs list.  loadJsonData returns
none exactly where the Python raises: a missing required index key
(dimension name, factor name, layer Layer) or a status containment test on
a non-string value.
-/

/-- A primitive JSON value held in a node dictionary. -/
inductive PVal where
  | s (v : String)
  | n (v : ℚ)
  | b (v : Bool)
  deriving DecidableEq, Repr

/-- A Python dict of primitive values: an association list with unique
keys. -/
abbrev Dict := List (String × PVal)

/-- Python dict lookup d[k] as an Option. -/
def dlookup (d : Dict) (k : String) : Option PVal :=
  (d.find? (fun p => p.1 == k)).map Prod.snd

/-- Python d.get(k, dflt). -/
def dget (d : Dict) (k : String) (dflt : PVal) : PVal :=
  (dlookup d k).getD dflt

/-- Python dict assignment d[k] = v: replace the value in place when the
key exists, append otherwise. -/
def dset : Dict → String → PVal → Dict
  | [], k, v => [(k, v)]
  | (k1, v1) :: rest, k, v =>
      if k1 == k then (k1, v) :: rest else (k1, v1) :: dset rest k v

/-- Python d.update(other): assign every binding of other in order. -/
def dupdate (d other : Dict) : Dict :=
  other.foldl (fun acc kv => dset acc kv.1 kv.2) d

/-- The string payload of a value, when it is a string (a Python operation
needing a str raises otherwise). -/
def asStr : PVal → Option String
  | PVal.s v => some v
  | _ => none

/-- Helper for Python str.title: uppercase an alphabetic character that
follows a non-alphabetic one, lowercase the rest. -/
def pyTitleAux : Bool → List Char → List Char
  | _, [] => []
  | prevAlpha, c :: cs =>
      (if c.isAlpha then (if prevAlpha then c.toLower else c.toUpper) else c) ::
        pyTitleAux c.isAlpha cs

/-- Python str.title over ASCII. -/
def pyTitle (s : String) : String := String.mk (pyTitleAux false s.data)

/-- A factor entry of the configuration document: its dict minus the layers
array, and the layer dicts. -/
structure FactorDoc where
  attrs : Dict
  layers : List Dict
  deriving DecidableEq, Repr

/-- A dimension entry of the configuration document. -/
structure DimensionDoc where
  attrs : Dict
  factors : List FactorDoc
  deriving DecidableEq, Repr

/-- The whole configuration document. -/
structure AnalysisDoc where
  attrs : Dict
  dimensions : List DimensionDoc
  deriving DecidableEq, Repr

/-- A loaded indicator (layer) item: data(0), data(2) and the attributes
dict data(3) (the layer dict object itself). -/
structure TreeItemL where
  name : PVal
  weighting : PVal
  attrs : Dict
  deriving DecidableEq, Repr

/-- A loaded factor item: data(0), data(2) (loaded as the empty string),
the rebuilt factor_attributes dict, and the child layers. -/
structure TreeItemF where
  name : PVal
  weighting : PVal
  attrs : Dict
  layers : List TreeItemL
  deriving DecidableEq, Repr

/-- A loaded dimension item: the title-cased name, data(2), the rebuilt
dimension_attributes dict, and the child factors. -/
structure TreeItemD where
  name : String
  weighting : PVal
  attrs : Dict
  factors : List TreeItemF
  deriving DecidableEq, Repr

/-- The loaded analysis item with its three attributes and the dimensions. -/
structure TreeItemA where
  attrs : Dict
  dimensions : List TreeItemD
  deriving DecidableEq, Repr

/-- The fixed attribute dict _create_dimension_item builds (lines 114-128):
only these keys survive, Factor Aggregation being read into Analysis
Mode. -/
def dimension_attributes (d : Dict) : Dict :=
  [("id", dget d "id" (PVal.s "")),
   ("name", dget d "name" (PVal.s "")),
   ("text", dget d "text" (PVal.s "")),
   ("required", dget d "required" (PVal.b false)),
   ("default_analysis_weighting", dget d "default_analysis_weighting" (PVal.n 0)),
   ("Analysis Mode", dget d "Factor Aggregation" (PVal.s "")),
   ("Result", dget d "Result" (PVal.s "")),
   ("Execution Start Time", dget d "Execution Start Time" (PVal.s "")),
   ("Dimension Result File", dget d "Dimension Result File" (PVal.s "")),
   ("Execution End Time", dget d "Execution End Time" (PVal.s ""))]

/-- The fixed attribute dict _create_factor_item builds (lines 151-164),
reading default_analysis_weighting into default_dimension_weighting. -/
def factor_attributes (d : Dict) : Dict :=
  [("id", dget d "id" (PVal.s "")),
   ("name", dget d "name" (PVal.s "")),
   ("text", dget d "text" (PVal.s "")),
   ("required", dget d "required" (PVal.b false)),
   ("default_dimension_weighting", dget d "default_analysis_weighting" (PVal.n 0)),
   ("Analysis Mode", dget d "Factor Aggregation" (PVal.s "")),
   ("Result", dget d "Result" (PVal.s "")),
   ("Execution Start Time", dget d "Execution Start Time" (PVal.s "")),
   ("Factor Result File", dget d "Factor Result File" (PVal.s "")),
   ("Execution End Time", dget d "Execution End Time" (PVal.s ""))]

/-- _create_indicator_item (lines 176-202): data(0) is the required Layer
key, data(2) the Factor Weighting value defaulting to 0, data(3) the layer
dict itself; the status computation tests containment on Indicator
Result. -/
def loadLayer (layer : Dict) : Option TreeItemL := do
  let nm ← dlookup layer "Layer"
  let _ ← asStr (dget layer "Indicator Result" (PVal.s ""))
  pure ⟨nm, dget layer "Factor Weighting" (PVal.n 0), layer⟩

/-- _create_factor_item: data(0) is the required name key, the attributes
are rebuilt from the whitelist, the layers loaded in order. -/
def loadFactor (f : FactorDoc) : Option TreeItemF := do
  let nm ← dlookup f.attrs "name"
  let _ ← asStr (dget f.attrs "Result" (PVal.s ""))
  let ls ← f.layers.mapM loadLayer
  pure ⟨nm, PVal.s "", factor_attributes f.attrs, ls⟩

/-- _create_dimension_item: the required name key is title-cased for
data(0), the attributes rebuilt from the whitelist, the factors loaded in
order. -/
def loadDimension (dd : DimensionDoc) : Option TreeItemD := do
  let nmv ← dlookup dd.attrs "name"
  let nm ← asStr nmv
  let _ ← asStr (dget dd.attrs "Result" (PVal.s ""))
  let fs ← dd.factors.mapM loadFactor
  pure ⟨pyTitle nm, PVal.s "", dimension_attributes dd.attrs, fs⟩

/-- JsonTreeModel.loadJsonData (lines 58-101): build the analysis item with
its three attributes and load the dimension subtrees. -/
def loadJsonData (doc : AnalysisDoc) : Option TreeItemA := do
  let ds ← doc.dimensions.mapM loadDimension
  pure ⟨[("Analysis Name", dget doc.attrs "analysis_name" (PVal.s "Analysis")),
         ("Description", dget doc.attrs "description" (PVal.s "No Description")),
         ("Working Folder", dget doc.attrs "working_folder" (PVal.s "Not Set"))],
        ds⟩

/-- to_json on a layer item (lines 316-319): the attrs dict with Factor
Weighting assigned from data(2). -/
def serializeLayer (t : TreeItemL) : Dict :=
  dset t.attrs "Factor Weighting" t.weighting

/-- to_json on a factor item (lines 308-315): the base dict with name and
Dimension Weighting, updated with data(3). -/
def serializeFactor (t : TreeItemF) : FactorDoc :=
  ⟨dupdate [("name", t.name), ("Dimension Weighting", t.weighting)] t.attrs,
   t.layers.map serializeLayer⟩

/-- to_json on a dimension item (lines 300-307): the base dict with the
lower-cased name and Analysis Weighting, updated with data(3). -/
def serializeDimension (t : TreeItemD) : DimensionDoc :=
  ⟨dupdate [("name", PVal.s (pyLower t.name)), ("Analysis Weighting", t.weighting)]
     t.attrs,
   t.factors.map serializeFactor⟩

/-- JsonTreeModel.to_json (lines 282-324) on the analysis item. -/
def to_json (t : TreeItemA) : AnalysisDoc :=
  ⟨[("analysis_name", dget t.attrs "Analysis Name" (PVal.s "")),
    ("description", dget t.attrs "Description" (PVal.s "")),
    ("working_folder", dget t.attrs "Working Folder" (PVal.s ""))],
   t.dimensions.map serializeDimension⟩

/-- Load then save: the round trip of the claim. -/
def roundTrip (doc : AnalysisDoc) : Option AnalysisDoc :=
  (loadJsonData doc).map to_json

/-- A document with one dimension carrying a custom key. -/
def docCustom : AnalysisDoc :=
  ⟨[("analysis_name", PVal.s "A"), ("description", PVal.s "D"),
    ("working_folder", PVal.s "W")],
   [⟨[("name", PVal.s "health"), ("custom", PVal.s "x")], []⟩]⟩

/-- C5 counterexample: loading a document whose dimension carries the
custom key custom = x and serializing the tree back drops the key — the
dimension attributes are rebuilt from a fixed whitelist — so the round
trip is not the identity on keys. -/
theorem round_trip_drops_dimension_key :
    docCustom.dimensions.map (fun d => dlookup d.attrs "custom") =
      [some (PVal.s "x")] ∧
    (roundTrip docCustom).map
        (fun doc => doc.dimensions.map (fun d => dlookup d.attrs "custom")) =
      some [none] := by
  exact ⟨rfl, rfl⟩

/-- The keys a serialized dimension dict can carry: the two base keys of
to_json and the dimension_attributes whitelist. -/
def dimensionOutKeys : List String :=
  ["name", "Analysis Weighting", "id", "text", "required",
   "default_analysis_weighting", "Analysis Mode", "Result",
   "Execution Start Time", "Dimension Result File", "Execution End Time"]

/-- Assigning a key then looking it up yields the assigned value. -/
theorem dlookup_dset_self (d : Dict) (k : String) (v : PVal) :
    dlookup (dset d k v) k = some v := by
  induction d with
  | nil => simp [dset, dlookup, List.find?]
  | cons kv rest ih =>
      obtain ⟨k1, v1⟩ := kv
      by_cases h : k1 = k
      · subst h
        simp [dset, dlookup, List.find?]
      · have hbeq : (k1 == k) = false := beq_eq_false_iff_ne.mpr h
        simp only [dset, hbeq, Bool.false_eq_true, if_false]
        simpa [dlookup, List.find?, hbeq] using ih

/-- Assigning one key leaves the lookup of any other key unchanged. -/
theorem dlookup_dset_ne (d : Dict) (k : String) (v : PVal) (k2 : String)
    (h : k2 ≠ k) : dlookup (dset d k v) k2 = dlookup d k2 := by
  have hbeq : (k == k2) = false := beq_eq_false_iff_ne.mpr (Ne.symm h)
  induction d with
  | nil => simp [dset, dlookup, List.find?, hbeq]
  | cons kv rest ih =>
      obtain ⟨k1, v1⟩ := kv
      by_cases h1 : k1 = k
      · subst h1
        simp [dset, dlookup, List.find?, hbeq]
      · have hbeq1 : (k1 == k) = false := beq_eq_false_iff_ne.mpr h1
        by_cases h2 : k1 = k2
        · subst h2
          simp [dset, dlookup, List.find?, hbeq1]
        · have hbeq2 : (k1 == k2) = false := beq_eq_false_iff_ne.mpr h2
          simp only [dset, hbeq1, Bool.false_eq_true, if_false]
          simpa [dlookup, List.find?, hbeq2] using ih

/-- The keys a serialized factor dict can carry: the two base keys of
to_json and the factor_attributes whitelist. -/
def factorOutKeys : List String :=
  ["name", "Dimension Weighting", "id", "text", "required",
   "default_dimension_weighting", "Analysis Mode", "Result",
   "Execution Start Time", "Factor Result File", "Execution End Time"]

/-- C5 amended: the round trip is the identity on indicator (layer) nodes —
every key of a loadable layer dict is present with its original value on
save, Factor Weighting being rewritten with its own loaded value (added
with default 0 when absent) — while serialized dimension and factor dicts
carry only their whitelist keys, so every other key of the loaded document
is dropped. -/
theorem round_trip_layer_preserved (l : Dict) (t : TreeItemL) (k : String)
    (d : Dict) (w : PVal) (nm : String) (k2 : String)
    (fd : Dict) (fw fnm : PVal) (k3 : String)
    (h : loadLayer l = some t) (hk2 : k2 ∉ dimensionOutKeys)
    (hk3 : k3 ∉ factorOutKeys) :
    dlookup (serializeLayer t) k =
      (if k = "Factor Weighting" then some (dget l "Factor Weighting" (PVal.n 0))
       else dlookup l k) ∧
    dlookup (serializeDimension ⟨nm, w, dimension_attributes d, []⟩).attrs k2 =
      none ∧
    dlookup (serializeFactor ⟨fnm, fw, factor_attributes fd, []⟩).attrs k3 =
      none := by
  refine ⟨?_, ?_, ?_⟩
  · have ht : t = ⟨(dlookup l "Layer").getD (PVal.s ""),
        dget l "Factor Weighting" (PVal.n 0), l⟩ := by
      revert h
      cases hl : dlookup l "Layer" with
      | none => intro h; simp [loadLayer, hl] at h
      | some nm0 =>
          cases hs : asStr (dget l "Indicator Result" (PVal.s "")) with
          | none => intro h; simp [loadLayer, hl, hs] at h
          | some s0 =>
              intro h
              simp only [loadLayer, hl, hs, Option.pure_def, Option.bind_eq_bind,
                Option.some_bind, Option.some.injEq] at h
              subst h
              simp [hl]
    subst ht
    by_cases hk : k = "Factor Weighting"
    · subst hk
      simp [serializeLayer, dlookup_dset_self]
    · rw [if_neg hk]
      exact dlookup_dset_ne l "Factor Weighting" _ k hk
  · have h1 : k2 ≠ "name" := fun hh => hk2 (by rw [hh]; decide)
    have h2 : k2 ≠ "Analysis Weighting" := fun hh => hk2 (by rw [hh]; decide)
    have h3 : k2 ≠ "id" := fun hh => hk2 (by rw [hh]; decide)
    have h4 : k2 ≠ "text" := fun hh => hk2 (by rw [hh]; decide)
    have h5 : k2 ≠ "required" := fun hh => hk2 (by rw [hh]; decide)
    have h6 : k2 ≠ "default_analysis_weighting" := fun hh => hk2 (by rw [hh]; decide)
    have h7 : k2 ≠ "Analysis Mode" := fun hh => hk2 (by rw [hh]; decide)
    have h8 : k2 ≠ "Result" := fun hh => hk2 (by rw [hh]; decide)
    have h9 : k2 ≠ "Execution Start Time" := fun hh => hk2 (by rw [hh]; decide)
    have h10 : k2 ≠ "Dimension Result File" := fun hh => hk2 (by rw [hh]; decide)
    have h11 : k2 ≠ "Execution End Time" := fun hh => hk2 (by rw [hh]; decide)
    simp only [serializeDimension, dimension_attributes, dupdate, List.foldl]
    rw [dlookup_dset_ne _ _ _ _ h11, dlookup_dset_ne _ _ _ _ h10,
      dlookup_dset_ne _ _ _ _ h9, dlookup_dset_ne _ _ _ _ h8,
      dlookup_dset_ne _ _ _ _ h7, dlookup_dset_ne _ _ _ _ h6,
      dlookup_dset_ne _ _ _ _ h5, dlookup_dset_ne _ _ _ _ h4,
      dlookup_dset_ne _ _ _ _ h1, dlookup_dset_ne _ _ _ _ h3]
    have hb1 : (("name" : String) == k2) = false :=
      beq_eq_false_iff_ne.mpr (Ne.symm h1)
    have hb2 : (("Analysis Weighting" : String) == k2) = false :=
      beq_eq_false_iff_ne.mpr (Ne.symm h2)
    simp [dlookup, List.find?, hb1, hb2]
  · have g1 : k3 ≠ "name" := fun hh => hk3 (by rw [hh]; decide)
    have g2 : k3 ≠ "Dimension Weighting" := fun hh => hk3 (by rw [hh]; decide)
    have g3 : k3 ≠ "id" := fun hh => hk3 (by rw [hh]; decide)
    have g4 : k3 ≠ "text" := fun hh => hk3 (by rw [hh]; decide)
    have g5 : k3 ≠ "required" := fun hh => hk3 (by rw [hh]; decide)
    have g6 : k3 ≠ "default_dimension_weighting" := fun hh => hk3 (by rw [hh]; decide)
    have g7 : k3 ≠ "Analysis Mode" := fun hh => hk3 (by rw [hh]; decide)
    have g8 : k3 ≠ "Result" := fun hh => hk3 (by rw [hh]; decide)
    have g9 : k3 ≠ "Execution Start Time" := fun hh => hk3 (by rw [hh]; decide)
    have g10 : k3 ≠ "Factor Result File" := fun hh => hk3 (by rw [hh]; decide)
    have g11 : k3 ≠ "Execution End Time" := fun hh => hk3 (by rw [hh]; decide)
    simp only [serializeFactor, factor_attributes, dupdate, List.foldl]
    rw [dlookup_dset_ne _ _ _ _ g11, dlookup_dset_ne _ _ _ _ g10,
      dlookup_dset_ne _ _ _ _ g9, dlookup_dset_ne _ _ _ _ g8,
      dlookup_dset_ne _ _ _ _ g7, dlookup_dset_ne _ _ _ _ g6,
      dlookup_dset_ne _ _ _ _ g5, dlookup_dset_ne _ _ _ _ g4,
      dlookup_dset_ne _ _ _ _ g1, dlookup_dset_ne _ _ _ _ g3]
    have gb1 : (("name" : String) == k3) = false :=
      beq_eq_false_iff_ne.mpr (Ne.symm g1)
    have gb2 : (("Dimension Weighting" : String) == k3) = false :=
      beq_eq_false_iff_ne.mpr (Ne.symm g2)
    simp [dlookup, List.find?, gb1, gb2]

/-- A concrete loadable layer dict with a free-form key. -/
def layerSample : Dict :=
  [("Layer", PVal.s "Street Lights"), ("Factor Weighting", PVal.n (1 / 2)),
   ("free_form", PVal.s "kept")]

/-- C5 amended, witness: the sample layer round-trips its free-form key and
its Factor Weighting, and serialized dimension and factor dicts have no
custom key. -/
theorem round_trip_layer_preserved_witness :
    loadLayer layerSample =
      some ⟨PVal.s "Street Lights", PVal.n (1 / 2), layerSample⟩ ∧
    "custom" ∉ dimensionOutKeys ∧
    "custom" ∉ factorOutKeys ∧
    (dlookup (serializeLayer ⟨PVal.s "Street Lights", PVal.n (1 / 2), layerSample⟩)
        "free_form" =
      (if "free_form" = "Factor Weighting"
       then some (dget layerSample "Factor Weighting" (PVal.n 0))
       else dlookup layerSample "free_form") ∧
     dlookup (serializeDimension
        ⟨"Health", PVal.s "", dimension_attributes [("name", PVal.s "health")], []⟩).attrs
        "custom" = none ∧
     dlookup (serializeFactor
        ⟨PVal.s "fac", PVal.s "", factor_attributes [("name", PVal.s "fac")], []⟩).attrs
        "custom" = none) := by
  refine ⟨rfl, by decide, by decide, ?_⟩
  exact round_trip_layer_preserved layerSample
    ⟨PVal.s "Street Lights", PVal.n (1 / 2), layerSample⟩ "free_form"
    [("name", PVal.s "health")] (PVal.s "") "Health" "custom"
    [("name", PVal.s "fac")] (PVal.s "") (PVal.s "fac") "custom"
    rfl (by decide) (by decide)

/-!
## WorkflowFactory.create_workflow (src/geest/core/workflow_factory.py, lines 20-44)

The factory keeps one piece of mutable state, workflow_completed (initialized
to 0 in __init__), incremented each time a Use Default Index Score workflow is
created.  Dispatch reads only the attribute Analysis Mode; the branches are
embedded in the source order, including the state-dependent third branch.
-/

/-- The concrete workflow classes create_workflow can return. -/
inductive WorkflowKind where
  | rasterLayer
  | dontUse
  | defaultIndexScore
  | contextualAggregate
  deriving DecidableEq, Repr

/-- Mutable state of a WorkflowFactory instance: the workflow_completed
counter set to 0 in __init__ and incremented in create_workflow. -/
structure FactoryState where
  workflow_completed : Nat
  deriving DecidableEq, Repr

/-- WorkflowFactory.create_workflow, embedded from the source: dispatches on
attributes.get(Analysis Mode) in the written branch order; returns the chosen
workflow and the successor factory state, or the ValueError message of the
final else branch. -/
def create_workflow (s : FactoryState) (analysis_mode : Option String) :
    Except String (WorkflowKind × FactoryState) :=
  if analysis_mode = some "Spatial Analysis" then
    Except.ok (WorkflowKind.rasterLayer, s)
  else if analysis_mode = some "Use Default Index Score" then
    Except.ok (WorkflowKind.defaultIndexScore,
      { workflow_completed := s.workflow_completed + 1 })
  else if s.workflow_completed = 1 then
    Except.ok (WorkflowKind.contextualAggregate, s)
  else if analysis_mode = some "Don’t Use" then
    Except.ok (WorkflowKind.dontUse, s)
  else if analysis_mode = some "Temporal Analysis" then
    Except.ok (WorkflowKind.rasterLayer, s)
  else
    Except.error ("Unknown Analysis Mode: " ++ pyStr analysis_mode)

/-- The analysis-mode strings that create_workflow maps to a workflow through
a mode-matching branch. -/
def mapped_analysis_modes : List String :=
  ["Spatial Analysis", "Use Default Index Score", "Don’t Use",
   "Temporal Analysis"]

/-!
## WorkflowJob.__init__ call of create_workflow (src/geest/core/workflow_job.py)
-/

/-- Formal parameter names of WorkflowFactory.create_workflow
(src/geest/core/workflow_factory.py line 20), the bound self excluded. -/
def create_workflow_params : List String := ["attributes", "feedback"]

/-- Keyword-argument names with which WorkflowJob.__init__ invokes
WorkflowFactory.create_workflow (src/geest/core/workflow_job.py lines 44-49). -/
def workflow_job_create_kwargs : List String :=
  ["item", "cell_size_m", "feedback", "context"]

/-- Python call binding for a call made purely with keyword arguments, for a
callee none of whose parameters has a default: binding raises a TypeError
naming the first keyword that is not a formal parameter; otherwise it raises
a TypeError for a missing required argument; otherwise it succeeds. -/
def bindKwargs (params kwargs : List String) : Except String Unit :=
  match kwargs.find? (fun k => !(params.contains k)) with
  | some k =>
      Except.error ("TypeError: create_workflow() got an unexpected keyword argument " ++ k)
  | none =>
      match params.find? (fun p => !(kwargs.contains p)) with
      | some p =>
          Except.error ("TypeError: create_workflow() missing required argument " ++ p)
      | none => Except.ok ()

/-!
## Theorems for claims C8 and C10
-/

/-- C8 counterexample: once a Use Default Index Score workflow has been
created (workflow_completed equals 1), create_workflow returns a
ContextualAggregateWorkflow for the unmapped analysis mode Bogus Mode
instead of failing, refuting the claim that every unmapped combination
fails with an error. -/
theorem create_workflow_unmapped_mode_returns_workflow :
    create_workflow { workflow_completed := 1 } (some "Bogus Mode") =
      Except.ok (WorkflowKind.contextualAggregate, { workflow_completed := 1 }) ∧
    "Bogus Mode" ∉ mapped_analysis_modes := by
  constructor
  · rfl
  · decide

/-- C8 amended: create_workflow dispatches on the analysis mode alone (the
node role is never consulted) and on the factory state; whenever the factory
has not created exactly one Use Default Index Score workflow
(workflow_completed different from 1), an analysis mode outside the mapped
set raises ValueError with the Unknown Analysis Mode message. -/
theorem create_workflow_unmapped_mode_raises (s : FactoryState) (m : Option String)
    (hs : s.workflow_completed ≠ 1)
    (hm : ∀ x, m = some x → x ∉ mapped_analysis_modes) :
    create_workflow s m = Except.error ("Unknown Analysis Mode: " ++ pyStr m) := by
  have h1 : ¬ m = some "Spatial Analysis" := fun h => hm _ h (by decide)
  have h2 : ¬ m = some "Use Default Index Score" := fun h => hm _ h (by decide)
  have h3 : ¬ m = some "Don’t Use" := fun h => hm _ h (by decide)
  have h4 : ¬ m = some "Temporal Analysis" := fun h => hm _ h (by decide)
  simp only [create_workflow, if_neg h1, if_neg h2, if_neg hs, if_neg h3, if_neg h4]

/-- C8 amended, witness: a fresh factory rejects the unmapped mode
Bogus Mode with a ValueError. -/
theorem create_workflow_unmapped_mode_raises_witness :
    create_workflow { workflow_completed := 0 } (some "Bogus Mode") =
      Except.error ("Unknown Analysis Mode: " ++ pyStr (some "Bogus Mode")) := by
  refine create_workflow_unmapped_mode_raises _ _ (by decide) ?_
  intro x hx
  cases hx
  decide

/-- C10: WorkflowJob.__init__ invokes WorkflowFactory.create_workflow with
the keyword arguments item, cell_size_m, feedback and context, while the
callee accepts only attributes and feedback; Python call binding therefore
raises a TypeError (unexpected keyword argument item) before any workflow
runs, so no WorkflowJob can ever be constructed. -/
theorem workflow_job_init_raises_type_error :
    bindKwargs create_workflow_params workflow_job_create_kwargs =
      Except.error
        ("TypeError: create_workflow() got an unexpected keyword argument " ++ "item") := by
  rfl

/-!
## TreePanel phase queueing (src/geest/gui/panels/tree_panel.py)

run_all (line 1177) sets run_only_incomplete to False and calls
_queue_workflows (line 1197), which sets the phase queue to indicators,
factors, dimensions, analysis and calls run_next_workflow_queue
(line 1212); that pops the first phase, queues its workflows through
start_workflows (line 912) / _start_workflows (line 927) /
queue_workflow_task (line 963) and starts the queue manager.

Modelled from the spec: WorkflowQueueManager is imported from geest.core
but its module is not under src/; per spec section 4.6 it drains every
queued task of the phase (each finishes, successfully or not) before
emitting processing_completed, which tree_panel connects back to
run_next_workflow_queue (line 196).  The execution trace of a full run is
therefore the concatenation, phase by phase, of the tasks each phase
queues, which the recursion below produces.

The tree is a mutual inductive so that the traversal is structural.
-/

mutual

/-- A node of the result tree: its role string, the attribute slice the
queueing logic reads, and its ordered children. -/
inductive TreeNode where
  | mk (role : String) (attrs : ItemAttrs) (children : TreeList)

/-- The ordered children of a tree node. -/
inductive TreeList where
  | nil
  | cons (head : TreeNode) (tail : TreeList)

end

/-- The role string of a tree node. -/
def TreeNode.role : TreeNode → String
  | TreeNode.mk r _ _ => r

/-- The attribute slice of a tree node. -/
def TreeNode.attrs : TreeNode → ItemAttrs
  | TreeNode.mk _ a _ => a

/-- A task queued for the workflow pool: the node id and the role the task
was queued under. -/
structure QueuedTask where
  id : String
  role : String
  deriving DecidableEq, Repr

/-- TreePanel.queue_workflow_task (lines 963-1001): skip when the node has
a result_file and only incomplete nodes run; otherwise queue a task only
when the requested role matches the node role and is one of the four
phases. -/
def queue_workflow_task (inc : Bool) (attrs : ItemAttrs) (nodeRole : String)
    (role : String) : Option QueuedTask :=
  if attrs.result_file != "" && inc then none
  else if role == nodeRole &&
      (role == "indicator" || role == "factor" || role == "dimension" ||
        role == "analysis") then
    some ⟨attrs.id, role⟩
  else none

mutual

/-- TreePanel._start_workflows (lines 927-940) on one parent: iterate its
children, skipping a child whose getStatus equals the tooltip sentence
Excluded from analysis, queueing the child and recursing into it. -/
def startOne (inc : Bool) (role : String) : TreeNode → List QueuedTask
  | TreeNode.mk _ _ children => startMany inc role children

/-- The child loop of _start_workflows. -/
def startMany (inc : Bool) (role : String) : TreeList → List QueuedTask
  | TreeList.nil => []
  | TreeList.cons c rest =>
      (if getStatus c.attrs == "Excluded from analysis" then []
       else (queue_workflow_task inc c.attrs c.role role).toList ++
         startOne inc role c) ++
      startMany inc role rest

end

/-- TreePanel.start_workflows (lines 912-925): map the phase name to the
role and start from the tree root. -/
def start_workflows (inc : Bool) (root : TreeNode) (ty : String) :
    List QueuedTask :=
  if ty == "indicators" then startOne inc "indicator" root
  else if ty == "factors" then startOne inc "factor" root
  else if ty == "dimensions" then startOne inc "dimension" root
  else if ty == "analysis" then startOne inc "analysis" root
  else []

/-- TreePanel.run_next_workflow_queue (lines 1212-1230) together with the
spec-modelled queue-manager drain: pop the first phase, queue and drain its
tasks, and continue with the remaining phases when processing_completed
fires. -/
def run_next_workflow_queue (inc : Bool) (root : TreeNode) :
    List String → List QueuedTask
  | [] => []
  | ph :: rest =>
      start_workflows inc root ph ++ run_next_workflow_queue inc root rest

/-- TreePanel.run_all (lines 1177-1184) with _queue_workflows (line 1202):
run the four phases in the fixed order with run_only_incomplete False; the
result is the ordered execution trace of the full run. -/
def run_all (root : TreeNode) : List QueuedTask :=
  run_next_workflow_queue false root
    ["indicators", "factors", "dimensions", "analysis"]

/-- The position of a role in the fixed phase order. -/
def phaseRank (role : String) : Nat :=
  if role == "indicator" then 0
  else if role == "factor" then 1
  else if role == "dimension" then 2
  else 3

mutual

/-- Every task startOne queues carries the requested role. -/
theorem startOne_roles (inc : Bool) (role : String) (t : TreeNode)
    (q : QueuedTask) (hq : q ∈ startOne inc role t) : q.role = role :=
  match t with
  | TreeNode.mk _ _ children =>
      startMany_roles inc role children q (by simpa [startOne] using hq)

/-- Every task startMany queues carries the requested role. -/
theorem startMany_roles (inc : Bool) (role : String) (l : TreeList)
    (q : QueuedTask) (hq : q ∈ startMany inc role l) : q.role = role :=
  match l with
    | TreeList.nil => by simp [startMany] at hq
    | TreeList.cons c rest => by
        simp only [startMany, List.mem_append] at hq
        rcases hq with hq | hq
        · by_cases hex : (getStatus c.attrs == "Excluded from analysis") = true
          · rw [if_pos hex] at hq
            cases hq
          · rw [if_neg hex] at hq
            rcases List.mem_append.mp hq with hq2 | hq2
            · revert hq2
              unfold queue_workflow_task
              by_cases hskip : (c.attrs.result_file != "" && inc) = true
              · rw [if_pos hskip]
                intro hq2
                cases hq2
              · rw [if_neg hskip]
                by_cases hrole : (role == c.role &&
                    (role == "indicator" || role == "factor" ||
                      role == "dimension" || role == "analysis")) = true
                · rw [if_pos hrole]
                  intro hq2
                  have : q = ⟨c.attrs.id, role⟩ := by simpa using hq2
                  rw [this]
                · rw [if_neg hrole]
                  intro hq2
                  cases hq2
            · exact startOne_roles inc role c q hq2
        · exact startMany_roles inc role rest q hq
end

/-- A list whose elements are all equal is pairwise nondecreasing. -/
theorem pairwise_le_of_const (l : List Nat) (c : Nat) (h : ∀ x ∈ l, x = c) :
    l.Pairwise (· ≤ ·) := by
  induction l with
  | nil => exact List.Pairwise.nil
  | cons a t ih =>
      refine List.Pairwise.cons ?_ (ih fun x hx => h x (List.mem_cons_of_mem _ hx))
      intro b hb
      rw [h a (List.mem_cons_self _ _), h b (List.mem_cons_of_mem _ hb)]

/-- Gluing two pairwise-nondecreasing rank lists when every rank of the
first is bounded by every rank of the second. -/
theorem pairwise_le_append (l1 l2 : List Nat)
    (h1 : l1.Pairwise (· ≤ ·)) (h2 : l2.Pairwise (· ≤ ·))
    (hb : ∀ x ∈ l1, ∀ y ∈ l2, x ≤ y) : (l1 ++ l2).Pairwise (· ≤ ·) :=
  List.pairwise_append.mpr ⟨h1, h2, hb⟩

/-- The phase ranks along a full run are nondecreasing. -/
theorem run_all_rank_pairwise (root : TreeNode) :
    ((run_all root).map (fun q => phaseRank q.role)).Pairwise (· ≤ ·) := by
  have hmem : ∀ (role : String) (x : Nat),
      x ∈ (startOne false role root).map (fun q => phaseRank q.role) →
      x = phaseRank role := by
    intro role x hx
    rcases List.mem_map.mp hx with ⟨q, hq, hxq⟩
    rw [← hxq, startOne_roles false role root q hq]
  have hA := hmem "indicator"
  have hB := hmem "factor"
  have hC := hmem "dimension"
  have hD := hmem "analysis"
  have htrace : run_all root =
      startOne false "indicator" root ++ (startOne false "factor" root ++
        (startOne false "dimension" root ++ (startOne false "analysis" root ++ []))) := by
    rfl
  rw [htrace]
  simp only [List.map_append]
  refine pairwise_le_append _ _ (pairwise_le_of_const _ 0 (by simpa [phaseRank] using hA))
    ?_ ?_
  · refine pairwise_le_append _ _ (pairwise_le_of_const _ 1 (by simpa [phaseRank] using hB))
      ?_ ?_
    · refine pairwise_le_append _ _ (pairwise_le_of_const _ 2 (by simpa [phaseRank] using hC))
        ?_ ?_
      · refine pairwise_le_append _ _
          (pairwise_le_of_const _ 3 (by simpa [phaseRank] using hD))
          List.Pairwise.nil (by intro x hx y hy; cases hy)
      · intro x hx y hy
        rcases List.mem_append.mp hy with hy | hy
        · rw [hC x hx, hD y hy]
          decide
        · cases (by simpa using hy : y ∈ ([] : List Nat))
    · intro x hx y hy
      have hx1 : x = 1 := by simpa [phaseRank] using hB x hx
      rcases List.mem_append.mp hy with hy | hy
      · rw [hx1, (by simpa [phaseRank] using hC y hy : y = 2)]
        omega
      · rcases List.mem_append.mp hy with hy | hy
        · rw [hx1, (by simpa [phaseRank] using hD y hy : y = 3)]
          omega
        · cases (by simpa using hy : y ∈ ([] : List Nat))
  · intro x hx y hy
    have hx0 : x = 0 := by simpa [phaseRank] using hA x hx
    rw [hx0]
    exact Nat.zero_le y

/-- C9: along the execution trace of run_all — four phases queued and
drained in the fixed order indicators, factors, dimensions, analysis, a
phase finishing before the next starts — a task of a strictly earlier
phase is always recorded strictly before a task of a later phase: rank
increase forces position increase. -/
theorem run_all_phase_ordering (root : TreeNode) (i j : Nat)
    (hi : i < (run_all root).length) (hj : j < (run_all root).length)
    (hlt : phaseRank ((run_all root).get ⟨i, hi⟩).role <
      phaseRank ((run_all root).get ⟨j, hj⟩).role) : i < j := by
  have hp := run_all_rank_pairwise root
  rw [List.pairwise_iff_getElem] at hp
  by_contra hcon
  push_neg at hcon
  rcases Nat.lt_or_ge j i with hji | hij
  · have hlen : ((run_all root).map (fun q => phaseRank q.role)).length =
        (run_all root).length := List.length_map _ _
    have := hp j i (by rw [hlen]; exact hj) (by rw [hlen]; exact hi) hji
    simp only [List.getElem_map] at this
    simp only [List.get_eq_getElem] at hlt
    omega
  · have hij2 : i = j := by omega
    subst hij2
    exact lt_irrefl _ hlt

/-- A leaf attribute slice with the given id: not yet run, nothing
excluded. -/
def nodeAttrs (id9 : String) : ItemAttrs := ⟨"", "", false, "", id9, none⟩

/-- A four-level sample tree: analysis, dimension, factor, indicator. -/
def treeSample : TreeNode :=
  TreeNode.mk "root" (nodeAttrs "root")
    (TreeList.cons
      (TreeNode.mk "analysis" (nodeAttrs "ana")
        (TreeList.cons
          (TreeNode.mk "dimension" (nodeAttrs "dim")
            (TreeList.cons
              (TreeNode.mk "factor" (nodeAttrs "fac")
                (TreeList.cons
                  (TreeNode.mk "indicator" (nodeAttrs "ind") TreeList.nil)
                  TreeList.nil))
              TreeList.nil))
          TreeList.nil))
      TreeList.nil)

/-- C9 witness: on the sample tree the trace is indicator, factor,
dimension, analysis, and the phase-ordering theorem applied at the
indicator and factor positions yields their order. -/
theorem run_all_phase_ordering_witness :
    run_all treeSample =
      [⟨"ind", "indicator"⟩, ⟨"fac", "factor"⟩, ⟨"dim", "dimension"⟩,
       ⟨"ana", "analysis"⟩] ∧
    0 < 1 := by
  have htrace : run_all treeSample =
      [⟨"ind", "indicator"⟩, ⟨"fac", "factor"⟩, ⟨"dim", "dimension"⟩,
       ⟨"ana", "analysis"⟩] := by rfl
  refine ⟨htrace, ?_⟩
  refine run_all_phase_ordering treeSample 0 1 (by decide) (by decide) (by decide)

end Geest
